import Mathlib

/-!
Verification development for the robot tracker-processing core
(`robot/elfin_processing.py`).

The Python source is shallowly embedded as follows.

* Poses and points are records of exact numbers.  The geometric layer
  (Euler matrices, versors, arc planning) works over `ℝ`, since it uses
  trigonometric functions and square roots; the stateful filtering and
  sliding-window layer works over `ℚ`, idealizing IEEE floats as exact
  arithmetic, so that runs can be evaluated on concrete inputs.
* Python exceptions (e.g. `None @ matrix`, a `TypeError`) are modelled with
  `Except PyErr`; a Python function that can return `None` is modelled with
  an `Option` result inside the `Except`.
* The configuration constants `ROBOT_VERSOR_SCALE_FACTOR` and
  `ROBOT_HEAD_VELOCITY_THRESHOLD` come from the external `constants`
  module, which is not part of the core (spec section 6 lists them as
  externally supplied); they appear as explicit parameters.
-/

set_option autoImplicit false

namespace RobotTMS

open Real

/-- A 3-component vector (a position, or a triple of Euler angles). -/
structure V3 (α : Type) where
  x : α
  y : α
  z : α
  deriving DecidableEq, Repr

/-- A 6-component pose: position `x y z` and Euler angles `a b g`
(degrees), matching the positional 6-tuples used by the Python source. -/
structure V6 (α : Type) where
  x : α
  y : α
  z : α
  a : α
  b : α
  g : α
  deriving DecidableEq, Repr

/-- A tracker sample: the `[probe, reference, object]` triple of poses. -/
def T3 (α : Type) := V6 α × V6 α × V6 α

/-- A 4×4 homogeneous transformation matrix over `ℝ`, with explicit
entries `mRC` (row `R`, column `C`), as produced by `transformations.py`. -/
structure M4 where
  m00 : ℝ
  m01 : ℝ
  m02 : ℝ
  m03 : ℝ
  m10 : ℝ
  m11 : ℝ
  m12 : ℝ
  m13 : ℝ
  m20 : ℝ
  m21 : ℝ
  m22 : ℝ
  m23 : ℝ
  m30 : ℝ
  m31 : ℝ
  m32 : ℝ
  m33 : ℝ

/-- Matrix product of two 4×4 matrices (`numpy` `@`). -/
def M4.mul (A B : M4) : M4 where
  m00 := A.m00 * B.m00 + A.m01 * B.m10 + A.m02 * B.m20 + A.m03 * B.m30
  m01 := A.m00 * B.m01 + A.m01 * B.m11 + A.m02 * B.m21 + A.m03 * B.m31
  m02 := A.m00 * B.m02 + A.m01 * B.m12 + A.m02 * B.m22 + A.m03 * B.m32
  m03 := A.m00 * B.m03 + A.m01 * B.m13 + A.m02 * B.m23 + A.m03 * B.m33
  m10 := A.m10 * B.m00 + A.m11 * B.m10 + A.m12 * B.m20 + A.m13 * B.m30
  m11 := A.m10 * B.m01 + A.m11 * B.m11 + A.m12 * B.m21 + A.m13 * B.m31
  m12 := A.m10 * B.m02 + A.m11 * B.m12 + A.m12 * B.m22 + A.m13 * B.m32
  m13 := A.m10 * B.m03 + A.m11 * B.m13 + A.m12 * B.m23 + A.m13 * B.m33
  m20 := A.m20 * B.m00 + A.m21 * B.m10 + A.m22 * B.m20 + A.m23 * B.m30
  m21 := A.m20 * B.m01 + A.m21 * B.m11 + A.m22 * B.m21 + A.m23 * B.m31
  m22 := A.m20 * B.m02 + A.m21 * B.m12 + A.m22 * B.m22 + A.m23 * B.m32
  m23 := A.m20 * B.m03 + A.m21 * B.m13 + A.m22 * B.m23 + A.m23 * B.m33
  m30 := A.m30 * B.m00 + A.m31 * B.m10 + A.m32 * B.m20 + A.m33 * B.m30
  m31 := A.m30 * B.m01 + A.m31 * B.m11 + A.m32 * B.m21 + A.m33 * B.m31
  m32 := A.m30 * B.m02 + A.m31 * B.m12 + A.m32 * B.m22 + A.m33 * B.m32
  m33 := A.m30 * B.m03 + A.m31 * B.m13 + A.m32 * B.m23 + A.m33 * B.m33

/-- The 4×4 identity matrix. -/
def M4.id : M4 :=
  ⟨1, 0, 0, 0, 0, 1, 0, 0, 0, 0, 1, 0, 0, 0, 0, 1⟩

/-- The two Euler-axis conventions used by the source:
`sxyz` (static XYZ, the `transformations.py` default) and `rzyx`
(rotating ZYX). -/
inductive Axes where
  | sxyz
  | rzyx
  deriving DecidableEq, Repr

/-- `numpy.radians`: degrees to radians. -/
noncomputable def radians (d : ℝ) : ℝ := d * Real.pi / 180

/-- `numpy.degrees`: radians to degrees. -/
noncomputable def degrees (r : ℝ) : ℝ := r * 180 / Real.pi

/-- `math.atan2 y x`, modelled as the argument of the complex number
`x + y i`, which has the same value and the same range `(-π, π]`. -/
noncomputable def atan2 (y x : ℝ) : ℝ := Complex.arg (Complex.ofReal x + Complex.ofReal y * Complex.I)

/-- `_EPS` from `transformations.py`: `numpy.finfo(float).eps * 4.0`,
i.e. `4 * 2⁻⁵²`. -/
noncomputable def EPS : ℝ := 4 / 2 ^ 52

/-- The entry template of `transformations.euler_matrix` for
non-repeating axis sequences with `(i, j, k) = (0, 1, 2)` and no parity
flip (which covers both `sxyz` and `rzyx`; `rzyx` differs only in the
argument swap applied before this template). -/
noncomputable def eulerCore (ai aj ak : ℝ) : M4 :=
  let si := Real.sin ai
  let sj := Real.sin aj
  let sk := Real.sin ak
  let ci := Real.cos ai
  let cj := Real.cos aj
  let ck := Real.cos ak
  let cc := ci * ck
  let cs := ci * sk
  let sc := si * ck
  let ss := si * sk
  ⟨cj * ck, sj * sc - cs, sj * cc + ss, 0,
   cj * sk, sj * ss + cc, sj * cs - sc, 0,
   -sj, cj * si, cj * ci, 0,
   0, 0, 0, 1⟩

/-- `transformations.euler_matrix ai aj ak axes`.  For a rotating frame
(`rzyx`) the source swaps `ai` and `ak` before building the same entry
template it uses for `sxyz`. -/
noncomputable def euler_matrix (ai aj ak : ℝ) : Axes → M4
  | .sxyz => eulerCore ai aj ak
  | .rzyx => eulerCore ak aj ai

/-- `transformations.translation_matrix`: identity rotation block with
translation column `p`. -/
def translation_matrix (p : V3 ℝ) : M4 :=
  ⟨1, 0, 0, p.x, 0, 1, 0, p.y, 0, 0, 1, p.z, 0, 0, 0, 1⟩

/-- `transformations.concatenate_matrices` on two matrices. -/
def concatenate_matrices (A B : M4) : M4 := A.mul B

/-- `transformations.euler_from_matrix` for the two conventions used by
the source.  Both share the `(0, 1, 2)` non-repeating template; `rzyx`
additionally swaps the first and third resulting angles. -/
noncomputable def euler_from_matrix (M : M4) (ax : Axes) : ℝ × ℝ × ℝ :=
  let cy := Real.sqrt (M.m00 * M.m00 + M.m10 * M.m10)
  let r : ℝ × ℝ × ℝ :=
    if EPS < cy then
      (atan2 M.m21 M.m22, atan2 (-M.m20) cy, atan2 M.m10 M.m00)
    else
      (atan2 (-M.m12) M.m11, atan2 (-M.m20) cy, 0)
  match ax with
  | .sxyz => r
  | .rzyx => (r.2.2, r.2.1, r.1)

/-- `transformations.translation_from_matrix`: the last column. -/
def translation_from_matrix (M : M4) : V3 ℝ := ⟨M.m03, M.m13, M.m23⟩

/-- `coordinates_to_transformation_matrix` from the source: radians,
Euler rotation under the given convention, then translation ∘ rotation. -/
noncomputable def coordinates_to_transformation_matrix (position orientation : V3 ℝ) (axes : Axes) : M4 :=
  let r_ref := euler_matrix (radians orientation.x) (radians orientation.y) (radians orientation.z) axes
  let t_ref := translation_matrix position
  concatenate_matrices t_ref r_ref

/-- `transformation_matrix_to_coordinates` from the source: Euler angles
from the matrix under the given convention (converted to degrees) plus
the translation column. -/
noncomputable def transformation_matrix_to_coordinates (matrix : M4) (axes : Axes) : V3 ℝ × V3 ℝ :=
  let angles := euler_from_matrix matrix axes
  (translation_from_matrix matrix, ⟨degrees angles.1, degrees angles.2.1, degrees angles.2.2⟩)

/-- `compute_marker_transformation` from the source applied to one pose:
builds the marker matrix with the rotating-ZYX convention. -/
noncomputable def compute_marker_transformation (coord : V6 ℝ) : M4 :=
  coordinates_to_transformation_matrix ⟨coord.x, coord.y, coord.z⟩ ⟨coord.a, coord.b, coord.g⟩ .rzyx

/-- Python run-time faults (uncaught exceptions). -/
inductive PyErr where
  | typeError
  deriving DecidableEq, Repr

/-- `transformation_tracker_to_robot` from the source.  When
`m_tracker_to_robot` is `None`, the expression `m_tracker_to_robot @
M_tracker` raises a `TypeError`; the function itself never returns
`None`, so its normal result is always `some`. -/
noncomputable def transformation_tracker_to_robot (m_tracker_to_robot : Option M4)
    (tracker_coord : V6 ℝ) : Except PyErr (Option (V6 ℝ)) :=
  let M_tracker := coordinates_to_transformation_matrix
    ⟨tracker_coord.x, tracker_coord.y, tracker_coord.z⟩
    ⟨tracker_coord.a, tracker_coord.b, tracker_coord.g⟩ .rzyx
  match m_tracker_to_robot with
  | none => .error .typeError
  | some m =>
    let M_tracker_in_robot := m.mul M_tracker
    let tc := transformation_matrix_to_coordinates M_tracker_in_robot .rzyx
    .ok (some ⟨tc.1.x, tc.1.y, tc.1.z, tc.2.x, tc.2.y, tc.2.z⟩)

/-- `transform_tracker_to_robot` from the source: converts the three
marker poses and falls back to the raw input when the first conversion
returned `None`.  (That fallback branch is dead code in the source,
because `transformation_tracker_to_robot` never returns `None`; the
`Option.getD` defaults on the other two results model `numpy.vstack`
consuming whatever values are present and are likewise unreachable.) -/
noncomputable def transform_tracker_to_robot (m_tracker_to_robot : Option M4)
    (coord_tracker : T3 ℝ) : Except PyErr (T3 ℝ) := do
  let probe ← transformation_tracker_to_robot m_tracker_to_robot coord_tracker.1
  let ref ← transformation_tracker_to_robot m_tracker_to_robot coord_tracker.2.1
  let obj ← transformation_tracker_to_robot m_tracker_to_robot coord_tracker.2.2
  match probe with
  | none => pure coord_tracker
  | some p => pure (p, ref.getD coord_tracker.2.1, obj.getD coord_tracker.2.2)

/-! ### Axis Kalman filter (`KalmanTracker` over `cv2.KalmanFilter`)

One 2-state (value, velocity) scalar filter per pose component, with
transition matrix `[[1,1],[0,1]]`, measurement matrix `[[1,1]]`, process
noise `0.001·I`, measurement noise `[0.1]`.  `cv2.KalmanFilter`
initializes `statePost` and `errorCovPost` to zero; `update_kalman`
performs the standard predict / correct recursion and the caller reads
`statePost[0]`.  Float arithmetic is idealized as exact `ℚ` arithmetic. -/

/-- The per-axis filter state: posterior state vector `(x0, x1)` and
posterior error covariance `(p00 p01; p10 p11)`. -/
structure KF where
  x0 : ℚ
  x1 : ℚ
  p00 : ℚ
  p01 : ℚ
  p10 : ℚ
  p11 : ℚ
  deriving DecidableEq, Repr

/-- Fresh filter state (`cv2` zero-initializes both). -/
def KF.init : KF := ⟨0, 0, 0, 0, 0, 0⟩

/-- `covariance_process` default from the source. -/
def covariance_process : ℚ := 1 / 1000

/-- `covariance_measure` default from the source. -/
def covariance_measure : ℚ := 1 / 10

/-- One `update_kalman` call: `filter.predict()` followed by
`filter.correct(measurement)`, for `F = [[1,1],[0,1]]`, `H = [[1,1]]`,
`Q = covariance_process·I`, `R = [covariance_measure]`. -/
def KF.update (kf : KF) (z : ℚ) : KF :=
  -- predict: xPre = F·xPost, PPre = F·PPost·Fᵀ + Q
  let x0p := kf.x0 + kf.x1
  let x1p := kf.x1
  let q00 := kf.p00 + kf.p10 + kf.p01 + kf.p11 + covariance_process
  let q01 := kf.p01 + kf.p11
  let q10 := kf.p10 + kf.p11
  let q11 := kf.p11 + covariance_process
  -- correct: S = H·PPre·Hᵀ + R, K = PPre·Hᵀ·S⁻¹,
  -- xPost = xPre + K·(z − H·xPre), PPost = (I − K·H)·PPre
  let S := q00 + q01 + q10 + q11 + covariance_measure
  let k0 := (q00 + q01) / S
  let k1 := (q10 + q11) / S
  let innov := z - (x0p + x1p)
  { x0 := x0p + k0 * innov
    x1 := x1p + k1 * innov
    p00 := (1 - k0) * q00 - k0 * q10
    p01 := (1 - k0) * q01 - k0 * q11
    p10 := -k1 * q00 + (1 - k1) * q10
    p11 := -k1 * q01 + (1 - k1) * q11 }

/-- The six per-axis stabilizer states (`x y z a b g` order, the order in
which `kalman_filter` flattens the pose). -/
structure KF6 where
  fx : KF
  fy : KF
  fz : KF
  fa : KF
  fb : KF
  fg : KF
  deriving DecidableEq, Repr

/-- All six stabilizers fresh. -/
def KF6.init : KF6 := ⟨KF.init, KF.init, KF.init, KF.init, KF.init, KF.init⟩

/-- Feed one pose through the six stabilizers. -/
def KF6.update (s : KF6) (c : V6 ℚ) : KF6 :=
  ⟨s.fx.update c.x, s.fy.update c.y, s.fz.update c.z,
   s.fa.update c.a, s.fb.update c.b, s.fg.update c.g⟩

/-- `coord_kalman` as computed by `kalman_filter`: the six posterior
first components after feeding the pose through the stabilizers. -/
def filteredPose (s : KF6) (c : V6 ℚ) : V6 ℚ :=
  let u := s.update c
  ⟨u.fx.x0, u.fy.x0, u.fz.x0, u.fa.x0, u.fb.x0, u.fg.x0⟩

/-! ### `TrackerProcessing` state -/

/-- The mutable per-instance state of `TrackerProcessing`.  The sliding
windows and filters are exact (`ℚ`); `velocity_std` is real because
`numpy.std` takes a square root; the calibration matrices are the real
geometric objects. -/
structure TPState where
  coord_vel : List (V6 ℚ)
  timestamp : List ℚ
  velocity_vector : List (V6 ℚ)
  kalman_coord_vector : List (ℚ × ℚ × ℚ)
  velocity_std : ℝ
  m_tracker_to_robot : Option M4
  matrix_tracker_fiducials : Option M4 × Option M4 × Option M4
  tracker_stabilizers : KF6

/-- `TrackerProcessing.__init__`: empty windows, `velocity_std = 0`,
unset calibration, fresh stabilizers. -/
def TPState.init : TPState :=
  { coord_vel := []
    timestamp := []
    velocity_vector := []
    kalman_coord_vector := []
    velocity_std := 0
    m_tracker_to_robot := none
    matrix_tracker_fiducials := (none, none, none)
    tracker_stabilizers := KF6.init }

/-- `SetMatrixTrackerFiducials`. -/
def SetMatrixTrackerFiducials (f : Option M4 × Option M4 × Option M4) (s : TPState) : TPState :=
  { s with matrix_tracker_fiducials := f }

/-- `TrackerProcessing.kalman_filter`: update all six stabilizers,
append the filtered position to the warm-up window, and return the raw
pose while the window length stays below 20 (deleting the oldest entry
otherwise). -/
def kalman_filter (coord_tracker : V6 ℚ) (s : TPState) : V6 ℚ × TPState :=
  let coord_kalman := filteredPose s.tracker_stabilizers coord_tracker
  let stabs := s.tracker_stabilizers.update coord_tracker
  let kcv := s.kalman_coord_vector ++ [(coord_kalman.x, coord_kalman.y, coord_kalman.z)]
  if kcv.length < 20 then
    (coord_tracker, { s with kalman_coord_vector := kcv, tracker_stabilizers := stabs })
  else
    (coord_kalman, { s with kalman_coord_vector := kcv.tail, tracker_stabilizers := stabs })

/-! ### Motion gate -/

/-- Mean of a list of rationals (`numpy` `mean`; empty input gives `0/0`,
which this exact model reads as `0` — the source only ever takes means of
non-empty windows). -/
def listMean (l : List ℚ) : ℚ := l.sum / l.length

/-- Componentwise mean of a list of poses (`numpy` `mean(axis=0)`). -/
def meanV6 (l : List (V6 ℚ)) : V6 ℚ :=
  ⟨listMean (l.map V6.x), listMean (l.map V6.y), listMean (l.map V6.z),
   listMean (l.map V6.a), listMean (l.map V6.b), listMean (l.map V6.g)⟩

/-- `estimate_head_velocity` from the source: mean of the first half of
the window, mean of the second half, componentwise difference divided by
the time spanned by the window.  Returns `(velocity, distance)`. -/
def estimate_head_velocity (coord_vel : List (V6 ℚ)) (timestamp : List ℚ) : V6 ℚ × V6 ℚ :=
  let half := coord_vel.length / 2
  let ci := meanV6 (coord_vel.take half)
  let cf := meanV6 (coord_vel.drop half)
  let dt := timestamp.getLastD 0 - timestamp.headD 0
  (⟨(cf.x - ci.x) / dt, (cf.y - ci.y) / dt, (cf.z - ci.z) / dt,
    (cf.a - ci.a) / dt, (cf.b - ci.b) / dt, (cf.g - ci.g) / dt⟩,
   ⟨cf.x - ci.x, cf.y - ci.y, cf.z - ci.z, cf.a - ci.a, cf.b - ci.b, cf.g - ci.g⟩)

/-- The flattening of a list of poses into its `6·n` scalar entries
(`numpy` flattens the velocity window before taking `std`). -/
def flattenV6 (l : List (V6 ℚ)) : List ℚ :=
  l.flatMap (fun v => [v.x, v.y, v.z, v.a, v.b, v.g])

/-- `numpy.std` of the flattened velocity window: the square root of the
mean squared deviation from the mean (population standard deviation). -/
noncomputable def npStd (l : List (V6 ℚ)) : ℝ :=
  let xs := flattenV6 l
  let n : ℝ := xs.length
  let mu : ℝ := ((xs.sum : ℚ) : ℝ) / n
  Real.sqrt ((xs.map (fun q => ((q : ℚ) - mu : ℝ) ^ 2)).sum / n)

/-- `TrackerProcessing.compute_head_move_threshold`.  `time()` is an
input owned by the surrounding loop (spec section 5), passed as `now`;
`ROBOT_HEAD_VELOCITY_THRESHOLD` is the externally supplied cutoff
`thr`.  Appends to the pose/timestamp windows; with at least 10 pose
samples it records a velocity sample, evicts the oldest pose/timestamp,
recomputes `velocity_std` only once the velocity window has 30 samples,
and answers `velocity_std ≤ thr`; otherwise returns `false`. -/
noncomputable def compute_head_move_threshold (thr : ℝ) (current_ref : V6 ℚ) (now : ℚ)
    (s : TPState) : Bool × TPState :=
  let cv := s.coord_vel ++ [current_ref]
  let ts := s.timestamp ++ [now]
  if 10 ≤ cv.length then
    let head_velocity := (estimate_head_velocity cv ts).1
    let vv := s.velocity_vector ++ [head_velocity]
    let stdvv : ℝ × List (V6 ℚ) :=
      if 30 ≤ vv.length then (npStd vv, vv.tail) else (s.velocity_std, vv)
    let s2 : TPState :=
      { s with coord_vel := cv.tail, timestamp := ts.tail,
               velocity_vector := stdvv.2, velocity_std := stdvv.1 }
    (if thr < stdvv.1 then false else true, s2)
  else
    (false, { s with coord_vel := cv, timestamp := ts })

/-! ### Versors, arc planning, head center -/

/-- `TrackerProcessing.compute_versors`: the difference vector over all
six components, divided by its Euclidean norm and scaled by the external
constant `ROBOT_VERSOR_SCALE_FACTOR` (`S`).  There is no zero-norm
guard in the source; for `final_point = init_point` the `numpy` division
produces NaNs, which this exact model reads through Lean's `x / 0 = 0`
convention — in either semantics no error is signalled. -/
noncomputable def compute_versors (S : ℝ) (init_point final_point : V6 ℝ) : V6 ℝ :=
  let d : V6 ℝ := ⟨final_point.x - init_point.x, final_point.y - init_point.y,
                   final_point.z - init_point.z, final_point.a - init_point.a,
                   final_point.b - init_point.b, final_point.g - init_point.g⟩
  let norm := Real.sqrt (d.x ^ 2 + d.y ^ 2 + d.z ^ 2 + d.a ^ 2 + d.b ^ 2 + d.g ^ 2)
  ⟨d.x / norm * S, d.y / norm * S, d.z / norm * S,
   d.a / norm * S, d.b / norm * S, d.g / norm * S⟩

/-- The six-component Euclidean norm used by `compute_versors`. -/
noncomputable def versorNorm (init_point final_point : V6 ℝ) : ℝ :=
  Real.sqrt ((final_point.x - init_point.x) ^ 2 + (final_point.y - init_point.y) ^ 2 +
    (final_point.z - init_point.z) ^ 2 + (final_point.a - init_point.a) ^ 2 +
    (final_point.b - init_point.b) ^ 2 + (final_point.g - init_point.g) ^ 2)

/-- `TrackerProcessing.compute_arc_motion`: the move-out point (a pose)
and the `target_arc` tuple, which concatenates the 3-component middle
arc point with the 7-component final arc point exactly as the source
does.  `S` is `ROBOT_VERSOR_SCALE_FACTOR`. -/
noncomputable def compute_arc_motion (S : ℝ) (current_robot_coordinates : V6 ℝ)
    (head_center_coordinates : V3 ℝ) (new_robot_coordinates : V6 ℝ) : V6 ℝ × List ℝ :=
  let head_center : V6 ℝ :=
    ⟨head_center_coordinates.x, head_center_coordinates.y, head_center_coordinates.z,
     new_robot_coordinates.a, new_robot_coordinates.b, new_robot_coordinates.g⟩
  let versor_factor_move_out := compute_versors S head_center current_robot_coordinates
  let init_move_out_point : V6 ℝ :=
    ⟨current_robot_coordinates.x + versor_factor_move_out.x,
     current_robot_coordinates.y + versor_factor_move_out.y,
     current_robot_coordinates.z + versor_factor_move_out.z,
     current_robot_coordinates.a, current_robot_coordinates.b, current_robot_coordinates.g⟩
  let middle_point : V6 ℝ :=
    ⟨(new_robot_coordinates.x + current_robot_coordinates.x) / 2,
     (new_robot_coordinates.y + current_robot_coordinates.y) / 2,
     (new_robot_coordinates.z + current_robot_coordinates.z) / 2, 0, 0, 0⟩
  let vm := compute_versors S head_center middle_point
  let versor_factor_middle_arc : V6 ℝ :=
    ⟨vm.x * 2, vm.y * 2, vm.z * 2, vm.a * 2, vm.b * 2, vm.g * 2⟩
  let middle_arc_point : V3 ℝ :=
    ⟨middle_point.x + versor_factor_middle_arc.x,
     middle_point.y + versor_factor_middle_arc.y,
     middle_point.z + versor_factor_middle_arc.z⟩
  let versor_factor_arc := compute_versors S head_center new_robot_coordinates
  let final_ext_arc_point : List ℝ :=
    [new_robot_coordinates.x + versor_factor_arc.x,
     new_robot_coordinates.y + versor_factor_arc.y,
     new_robot_coordinates.z + versor_factor_arc.z,
     new_robot_coordinates.a, new_robot_coordinates.b, new_robot_coordinates.g, 0]
  let target_arc := [middle_arc_point.x, middle_arc_point.y, middle_arc_point.z] ++ final_ext_arc_point
  (init_move_out_point, target_arc)

/-- `TrackerProcessing.correction_distance_calculation_target`: the
Euclidean distance between the first three components of two points. -/
noncomputable def correction_distance_calculation_target (coord_inv actual_point : V3 ℝ) : ℝ :=
  Real.sqrt ((coord_inv.x - actual_point.x) ^ 2 + (coord_inv.y - actual_point.y) ^ 2 +
    (coord_inv.z - actual_point.z) ^ 2)

/-- `TrackerProcessing.estimate_head_center`: builds the current head
matrix (rotating-ZYX), multiplies it with the left- and right-ear
fiducial matrices, and returns the midpoint of the two translation
columns.  If a fiducial matrix is unset (`None`), the matrix product
`ndarray @ None` raises an uncaught `TypeError`; the nasion fiducial is
unpacked but unused. -/
noncomputable def estimate_head_center (s : TPState) (current_head : V6 ℝ) :
    Except PyErr (V3 ℝ) :=
  let m_current_head := compute_marker_transformation current_head
  match s.matrix_tracker_fiducials.1, s.matrix_tracker_fiducials.2.1 with
  | some fl, some fr =>
    let m_ear_left_new := m_current_head.mul fl
    let m_ear_right_new := m_current_head.mul fr
    .ok ⟨(m_ear_left_new.m03 + m_ear_right_new.m03) / 2,
         (m_ear_left_new.m13 + m_ear_right_new.m13) / 2,
         (m_ear_left_new.m23 + m_ear_right_new.m23) / 2⟩
  | _, _ => .error .typeError

/-! ### Tick runners -/

/-- Run a sequence of `kalman_filter` ticks, collecting the outputs. -/
def runKalman : List (V6 ℚ) → TPState → List (V6 ℚ) × TPState
  | [], s => ([], s)
  | c :: cs, s =>
    let r := kalman_filter c s
    let rest := runKalman cs r.2
    (r.1 :: rest.1, rest.2)

/-- Run a sequence of `compute_head_move_threshold` ticks (each tick is
a pose together with its arrival time), collecting the boolean
outputs. -/
noncomputable def runGate (thr : ℝ) : List (V6 ℚ × ℚ) → TPState → List Bool × TPState
  | [], s => ([], s)
  | c :: cs, s =>
    let r := compute_head_move_threshold thr c.1 c.2 s
    let rest := runGate thr cs r.2
    (r.1 :: rest.1, rest.2)

/-- One state-mutating operation on a `TrackerProcessing` instance: a
Kalman tick, a motion-gate tick, or a fiducial registration. -/
inductive Op where
  | kalman (pose : V6 ℚ)
  | gate (pose : V6 ℚ) (now : ℚ)
  | setFiducials (f : Option M4 × Option M4 × Option M4)

/-- Apply one operation to the state (outputs discarded). -/
noncomputable def stepOp (thr : ℝ) (s : TPState) : Op → TPState
  | .kalman p => (kalman_filter p s).2
  | .gate p t => (compute_head_move_threshold thr p t s).2
  | .setFiducials f => SetMatrixTrackerFiducials f s

/-- Apply a sequence of operations to the state. -/
noncomputable def runOps (thr : ℝ) (ops : List Op) (s : TPState) : TPState :=
  ops.foldl (stepOp thr) s

/-! ### Definitions written from the spec's words (for refinement claims) -/

/-- Frame conversion of one pose as claim C1 words it: build the marker
matrix under the rotating-ZYX convention, left-multiply by the
tracker-to-robot matrix, and decode the product under the **static-XYZ**
convention. -/
noncomputable def trackerToRobotSpecC1 (m : M4) (tracker_coord : V6 ℝ) : V6 ℝ :=
  let M_tracker := coordinates_to_transformation_matrix
    ⟨tracker_coord.x, tracker_coord.y, tracker_coord.z⟩
    ⟨tracker_coord.a, tracker_coord.b, tracker_coord.g⟩ .rzyx
  let M_tracker_in_robot := m.mul M_tracker
  let tc := transformation_matrix_to_coordinates M_tracker_in_robot .sxyz
  ⟨tc.1.x, tc.1.y, tc.1.z, tc.2.x, tc.2.y, tc.2.z⟩

/-- Frame conversion of one pose as the code actually performs it:
as `trackerToRobotSpecC1` but decoding under the rotating-ZYX
convention on output as well. -/
noncomputable def trackerToRobotAmendedC1 (m : M4) (tracker_coord : V6 ℝ) : V6 ℝ :=
  let M_tracker := coordinates_to_transformation_matrix
    ⟨tracker_coord.x, tracker_coord.y, tracker_coord.z⟩
    ⟨tracker_coord.a, tracker_coord.b, tracker_coord.g⟩ .rzyx
  let M_tracker_in_robot := m.mul M_tracker
  let tc := transformation_matrix_to_coordinates M_tracker_in_robot .rzyx
  ⟨tc.1.x, tc.1.y, tc.1.z, tc.2.x, tc.2.y, tc.2.z⟩

/-- The recoverable geometric conditions named by the spec. -/
inductive GeomErr where
  | degenerateGeometry
  deriving DecidableEq, Repr

/-- Versor computation as claim C6 words it: detect a zero-length
difference vector and signal `DegenerateGeometry` instead of dividing by
zero. -/
noncomputable def compute_versors_checked (S : ℝ) (init_point final_point : V6 ℝ) :
    Except GeomErr (V6 ℝ) :=
  if versorNorm init_point final_point = 0 then .error .degenerateGeometry
  else .ok (compute_versors S init_point final_point)

/-! ### Claim C2 — pass-through on unset tracker-to-robot matrix -/

/-- Claim C2 (code evaluation at the failing input): with
`m_tracker_to_robot` unset, `transform_tracker_to_robot` does **not**
return the input poses unmodified; `transformation_tracker_to_robot`
raises a `TypeError` at `None @ M_tracker` before the (dead) `is None`
fallback in `transform_tracker_to_robot` can run, for every tracker
sample. -/
theorem claim2_code_evaluation (coord_tracker : T3 ℝ) :
    transform_tracker_to_robot none coord_tracker = .error .typeError := rfl

/-! ### Claim C3 — head-center estimation with unset fiducials -/

/-- Claim C3 counterexample: on a fresh `TrackerProcessing` instance
(fiducials unset) and the all-zero head pose, `estimate_head_center`
evaluates to an uncaught `TypeError` (the `ndarray @ None` product),
not to any recoverable `CalibrationRequired` status — refuting
"reported to the caller as a result/status distinction, never as an
uncaught fault". -/
theorem claim3_counterexample :
    TPState.init.matrix_tracker_fiducials = (none, none, none) ∧
      estimate_head_center TPState.init ⟨0, 0, 0, 0, 0, 0⟩ = .error .typeError :=
  ⟨rfl, rfl⟩

/-- Claim C3, amended: whenever the three fiducial matrices are unset,
`estimate_head_center` fails with an uncaught `TypeError` for every
current head pose (there is no graceful `CalibrationRequired` signal in
the code). -/
theorem claim3_theorem (s : TPState)
    (h : s.matrix_tracker_fiducials = (none, none, none)) (current_head : V6 ℝ) :
    estimate_head_center s current_head = .error .typeError := by
  simp [estimate_head_center, h]

/-- Witness for `claim3_theorem` at the initial state and zero pose. -/
theorem claim3_witness :
    TPState.init.matrix_tracker_fiducials = (none, none, none) ∧
      estimate_head_center TPState.init ⟨1, 2, 3, 0, 0, 0⟩ = .error .typeError :=
  ⟨rfl, claim3_theorem TPState.init rfl ⟨1, 2, 3, 0, 0, 0⟩⟩

/-! ### Claim C6 — zero-length versor -/

/-- Claim C6 counterexample: at the concrete degenerate input
`init_point = final_point = 0` (and scale 1), the code's
`compute_versors` does not behave like the `DegenerateGeometry`-checked
operation the claim describes: it returns a value where the checked
operation signals the error. -/
theorem claim6_counterexample :
    Except.ok (compute_versors 1 ⟨0, 0, 0, 0, 0, 0⟩ ⟨0, 0, 0, 0, 0, 0⟩) ≠
      compute_versors_checked 1 ⟨0, 0, 0, 0, 0, 0⟩ ⟨0, 0, 0, 0, 0, 0⟩ := by
  have h : versorNorm (V6.mk (α := ℝ) 0 0 0 0 0 0) ⟨0, 0, 0, 0, 0, 0⟩ = 0 := by
    simp [versorNorm]
  simp [compute_versors_checked, h]

/-- Claim C6, amended: the zero-length case is **not** detected: for
every scale factor and every point, `compute_versors` on two equal
points has a zero divisor (its six-component norm is 0) and still
returns a value rather than signalling `DegenerateGeometry` (in the
implementation the `numpy` division yields NaNs; no error is raised). -/
theorem claim6_theorem (S : ℝ) (p : V6 ℝ) :
    versorNorm p p = 0 ∧
      Except.ok (compute_versors S p p) ≠ compute_versors_checked S p p := by
  have h : versorNorm p p = 0 := by simp [versorNorm]
  exact ⟨h, by simp [compute_versors_checked, h]⟩

/-! ### Claim C9 — bounded sliding windows -/

/-- The capacity bounds claimed for the four sliding windows. -/
def windowsBounded (s : TPState) : Prop :=
  s.coord_vel.length ≤ 10 ∧ s.timestamp.length ≤ 10 ∧
    s.velocity_vector.length ≤ 30 ∧ s.kalman_coord_vector.length ≤ 20

/-- One mutation step of a window: unchanged, an append, or an append
followed by eviction of the oldest entry. -/
def isWindowStep {α : Type} (w w2 : List α) : Prop :=
  w2 = w ∨ (∃ v, w2 = w ++ [v]) ∨ (∃ v, w2 = (w ++ [v]).tail)

/-- The strengthened inductive invariant: the post-operation window
lengths (the pose and timestamp windows move in lockstep). -/
def windowsInv (s : TPState) : Prop :=
  s.coord_vel.length ≤ 9 ∧ s.timestamp.length = s.coord_vel.length ∧
    s.velocity_vector.length ≤ 29 ∧ s.kalman_coord_vector.length ≤ 19

theorem windowsInv_step (thr : ℝ) (s : TPState) (op : Op) (h : windowsInv s) :
    windowsInv (stepOp thr s op) := by
  obtain ⟨h1, h2, h3, h4⟩ := h
  cases op with
  | kalman p =>
    simp only [stepOp, kalman_filter]
    split <;> (simp_all [windowsInv]; try omega)
  | gate p t =>
    simp only [stepOp, compute_head_move_threshold]
    split
    · split <;> (simp_all [windowsInv]; try omega)
    · simp only [windowsInv] at *
      simp_all
      omega
  | setFiducials f =>
    simpa [stepOp, SetMatrixTrackerFiducials, windowsInv] using ⟨h1, h2, h3, h4⟩

theorem windowsInv_runOps (thr : ℝ) (ops : List Op) (s : TPState) (h : windowsInv s) :
    windowsInv (runOps thr ops s) := by
  induction ops generalizing s with
  | nil => simpa [runOps] using h
  | cons op rest ih =>
    have := ih (stepOp thr s op) (windowsInv_step thr s op h)
    simpa [runOps, List.foldl_cons] using this

/-- Claim C9: after every sequence of operations on a fresh
`TrackerProcessing` instance, the pose and timestamp windows hold at
most 10 entries, the velocity window at most 30, and the Kalman warm-up
window at most 20; and each single operation changes every window only
by leaving it alone, appending one entry, or appending one entry and
evicting the oldest. -/
theorem claim9_theorem (thr : ℝ) (ops : List Op) (op : Op) (s : TPState) :
    windowsBounded (runOps thr ops TPState.init) ∧
      (isWindowStep s.coord_vel (stepOp thr s op).coord_vel ∧
        isWindowStep s.timestamp (stepOp thr s op).timestamp ∧
        isWindowStep s.velocity_vector (stepOp thr s op).velocity_vector ∧
        isWindowStep s.kalman_coord_vector (stepOp thr s op).kalman_coord_vector) := by
  constructor
  · have h0 : windowsInv TPState.init := by simp [windowsInv, TPState.init]
    have h := windowsInv_runOps thr ops TPState.init h0
    obtain ⟨h1, h2, h3, h4⟩ := h
    exact ⟨by omega, by omega, by omega, by omega⟩
  · cases op with
    | kalman p =>
      simp only [stepOp, kalman_filter]
      split
      · exact ⟨Or.inl rfl, Or.inl rfl, Or.inl rfl, Or.inr (Or.inl ⟨_, rfl⟩)⟩
      · exact ⟨Or.inl rfl, Or.inl rfl, Or.inl rfl, Or.inr (Or.inr ⟨_, rfl⟩)⟩
    | gate p t =>
      simp only [stepOp, compute_head_move_threshold]
      split
      · split
        · exact ⟨Or.inr (Or.inr ⟨_, rfl⟩), Or.inr (Or.inr ⟨_, rfl⟩),
            Or.inr (Or.inr ⟨_, rfl⟩), Or.inl rfl⟩
        · exact ⟨Or.inr (Or.inr ⟨_, rfl⟩), Or.inr (Or.inr ⟨_, rfl⟩),
            Or.inr (Or.inl ⟨_, rfl⟩), Or.inl rfl⟩
      · exact ⟨Or.inr (Or.inl ⟨_, rfl⟩), Or.inr (Or.inl ⟨_, rfl⟩), Or.inl rfl, Or.inl rfl⟩
    | setFiducials f =>
      exact ⟨Or.inl rfl, Or.inl rfl, Or.inl rfl, Or.inl rfl⟩

/-! ### Claim C4 — Kalman warm-up window -/

theorem runKalman_length (l : List (V6 ℚ)) (s : TPState) :
    (runKalman l s).1.length = l.length := by
  induction l generalizing s with
  | nil => simp [runKalman]
  | cons c cs ih => simp [runKalman, ih]

/-- The returned pose of one `kalman_filter` tick: the raw input while
the warm-up window (after the append) is still shorter than 20, the
filtered pose otherwise. -/
theorem kalman_filter_fst (c : V6 ℚ) (s : TPState) :
    (kalman_filter c s).1 =
      if s.kalman_coord_vector.length + 1 < 20 then c
      else filteredPose s.tracker_stabilizers c := by
  simp only [kalman_filter, List.length_append, List.length_cons, List.length_nil]
  split <;> simp_all

/-- Warm-up window length evolution across one tick. -/
theorem kalman_filter_klen (c : V6 ℚ) (s : TPState) :
    (kalman_filter c s).2.kalman_coord_vector.length =
      if s.kalman_coord_vector.length + 1 < 20 then s.kalman_coord_vector.length + 1
      else s.kalman_coord_vector.length := by
  simp only [kalman_filter]
  split
  · simp_all
  · simp_all
    rw [if_neg (by omega)]

/-- Warm-up window length after a run, for any start state within the
window bound. -/
theorem runKalman_klen (l : List (V6 ℚ)) (s : TPState)
    (h : s.kalman_coord_vector.length ≤ 19) :
    (runKalman l s).2.kalman_coord_vector.length =
      if l = [] then s.kalman_coord_vector.length
      else min (s.kalman_coord_vector.length + l.length) 19 := by
  induction l generalizing s with
  | nil => simp [runKalman]
  | cons c cs ih =>
    have hmin : (kalman_filter c s).2.kalman_coord_vector.length =
        min (s.kalman_coord_vector.length + 1) 19 := by
      rw [kalman_filter_klen]; split <;> omega
    have hrec := ih (kalman_filter c s).2 (by rw [hmin]; omega)
    simp only [runKalman]
    rw [hrec, hmin]
    by_cases hcs : cs = [] <;> (simp [hcs]; try omega)

/-- The `n`-th output of a run is the `n`-th tick applied to the state
accumulated over the first `n` inputs. -/
theorem runKalman_getElem (l : List (V6 ℚ)) (s : TPState) (n : ℕ) :
    (runKalman l s).1[n]? =
      l[n]?.map (fun c => (kalman_filter c ((runKalman (l.take n) s).2)).1) := by
  induction l generalizing s n with
  | nil => simp [runKalman]
  | cons c cs ih =>
    cases n with
    | zero => simp [runKalman]
    | succ m => simpa [runKalman] using ih (kalman_filter c s).2 m

set_option maxHeartbeats 4000000 in
/-- Claim C4 counterexample: feeding the constant pose `(1,0,0,0,0,0)`
for 20 ticks from a fresh instance, the 20th output is **not** the raw
input pose: `kalman_filter` appends before testing `< 20`, so the 20th
tick already returns the filtered value (≈ 1.0125 here), refuting "on
each of the first 20 ticks the raw input pose is returned". -/
theorem claim4_counterexample :
    ((runKalman (List.replicate 20 (⟨1, 0, 0, 0, 0, 0⟩ : V6 ℚ)) TPState.init).1)[19]? ≠
      some ⟨1, 0, 0, 0, 0, 0⟩ := by
  norm_num [runKalman, kalman_filter, filteredPose, KF6.update, KF.update, KF6.init, KF.init,
    TPState.init, covariance_process, covariance_measure, List.replicate]

/-- Claim C4, amended: on each of the first **19** ticks the filter's
output is suppressed and the raw input pose is returned unchanged; from
tick **20** onward (0-indexed `n` with `20 ≤ n + 1`) the filtered
(corrected) pose — the six stabilizers' posterior values for the current
input, given the state accumulated over the previous ticks — is
returned. -/
theorem claim4_theorem (inputs : List (V6 ℚ)) (n : ℕ) (h : n < inputs.length) :
    (n + 1 < 20 → (runKalman inputs TPState.init).1[n]? = inputs[n]?) ∧
      (20 ≤ n + 1 →
        (runKalman inputs TPState.init).1[n]? =
          inputs[n]?.map
            (filteredPose ((runKalman (inputs.take n) TPState.init).2.tracker_stabilizers))) := by
  have hget := runKalman_getElem inputs TPState.init n
  have hklen := runKalman_klen (inputs.take n) TPState.init (by simp [TPState.init])
  have htl : (inputs.take n).length = n := by
    simp only [List.length_take]
    omega
  have hne : inputs ≠ [] := by
    intro hx
    rw [hx] at h
    simp at h
  have hk : (runKalman (inputs.take n) TPState.init).2.kalman_coord_vector.length =
      if n = 0 then 0 else min n 19 := by
    rw [hklen, htl]
    rcases Nat.eq_zero_or_pos n with h0 | h0
    · simp [h0, TPState.init]
    · have hne2 : inputs.take n ≠ [] := by
        simp only [ne_eq, List.take_eq_nil_iff]
        push_neg
        exact ⟨by omega, hne⟩
      have hn0 : n ≠ 0 := by omega
      simp [hne2, hn0, TPState.init]
  have hc : inputs[n]? = some (inputs.get ⟨n, h⟩) := by
    simp [List.getElem?_eq_getElem h, List.get_eq_getElem]
  constructor
  · intro hlt
    rw [hget, hc]
    simp only [Option.map_some']
    rw [kalman_filter_fst, hk, if_pos (by split <;> omega)]
  · intro hge
    rw [hget, hc]
    simp only [Option.map_some']
    rw [kalman_filter_fst, hk, if_neg (by split <;> omega)]

/-- Witness for `claim4_theorem`: a one-tick run, whose (first) tick is
within the suppression window, returns the raw pose. -/
theorem claim4_witness :
    0 < ([(⟨1, 2, 3, 4, 5, 6⟩ : V6 ℚ)] : List (V6 ℚ)).length ∧
      ((0 + 1 < 20 →
          (runKalman [(⟨1, 2, 3, 4, 5, 6⟩ : V6 ℚ)] TPState.init).1[0]? =
            ([(⟨1, 2, 3, 4, 5, 6⟩ : V6 ℚ)] : List (V6 ℚ))[0]?) ∧
        (20 ≤ 0 + 1 →
          (runKalman [(⟨1, 2, 3, 4, 5, 6⟩ : V6 ℚ)] TPState.init).1[0]? =
            ([(⟨1, 2, 3, 4, 5, 6⟩ : V6 ℚ)] : List (V6 ℚ))[0]?.map
              (filteredPose
                ((runKalman (([(⟨1, 2, 3, 4, 5, 6⟩ : V6 ℚ)] : List (V6 ℚ)).take 0)
                    TPState.init).2.tracker_stabilizers)))) :=
  ⟨by simp, claim4_theorem [⟨1, 2, 3, 4, 5, 6⟩] 0 (by simp)⟩

/-! ### Claim C5 — motion gate readiness -/

/-- With fewer than 10 pose samples (including the one just appended),
the gate returns `false` without touching the velocity machinery. -/
theorem gate_fst_short (thr : ℝ) (c : V6 ℚ) (t : ℚ) (s : TPState)
    (h : s.coord_vel.length + 1 < 10) :
    (compute_head_move_threshold thr c t s).1 = false := by
  simp only [compute_head_move_threshold]
  rw [if_neg (by simp; omega)]

/-- Pose window length evolution across one gate tick. -/
theorem gate_cvlen (thr : ℝ) (c : V6 ℚ) (t : ℚ) (s : TPState) :
    (compute_head_move_threshold thr c t s).2.coord_vel.length =
      if 10 ≤ s.coord_vel.length + 1 then s.coord_vel.length
      else s.coord_vel.length + 1 := by
  simp only [compute_head_move_threshold]
  split
  · split <;> simp_all
  · simp_all
    rw [if_neg (by omega)]

theorem runGate_length (thr : ℝ) (l : List (V6 ℚ × ℚ)) (s : TPState) :
    (runGate thr l s).1.length = l.length := by
  induction l generalizing s with
  | nil => simp [runGate]
  | cons c cs ih => simp [runGate, ih]

/-- The `n`-th gate output of a run is the `n`-th tick applied to the
state accumulated over the first `n` inputs. -/
theorem runGate_getElem (thr : ℝ) (l : List (V6 ℚ × ℚ)) (s : TPState) (n : ℕ) :
    (runGate thr l s).1[n]? =
      l[n]?.map (fun c =>
        (compute_head_move_threshold thr c.1 c.2 ((runGate thr (l.take n) s).2)).1) := by
  induction l generalizing s n with
  | nil => simp [runGate]
  | cons c cs ih =>
    cases n with
    | zero => simp [runGate]
    | succ m => simpa [runGate] using ih (compute_head_move_threshold thr c.1 c.2 s).2 m

/-- Pose window length after a gate run, for any start state within the
window bound. -/
theorem runGate_cvlen (thr : ℝ) (l : List (V6 ℚ × ℚ)) (s : TPState)
    (h : s.coord_vel.length ≤ 9) :
    (runGate thr l s).2.coord_vel.length =
      if l = [] then s.coord_vel.length
      else min (s.coord_vel.length + l.length) 9 := by
  induction l generalizing s with
  | nil => simp [runGate]
  | cons c cs ih =>
    have hmin : (compute_head_move_threshold thr c.1 c.2 s).2.coord_vel.length =
        min (s.coord_vel.length + 1) 9 := by
      rw [gate_cvlen]; split <;> omega
    have hrec := ih (compute_head_move_threshold thr c.1 c.2 s).2 (by rw [hmin]; omega)
    simp only [runGate]
    rw [hrec, hmin]
    by_cases hcs : cs = [] <;> (simp [hcs]; try omega)

/-- Claim C5 counterexample: run the gate for 10 ticks (threshold 10,
all-zero poses, timestamps 0..9) from a fresh instance.  At the 10th
tick only **one** velocity sample has ever been observed (far fewer than
30), yet the gate returns `true`: `velocity_std` still holds its initial
value 0, which is below the threshold.  This refutes "whenever fewer
than 30 velocity samples have been observed the gate does not return
true". -/
theorem claim5_counterexample :
    ((runGate 10 [((⟨0, 0, 0, 0, 0, 0⟩ : V6 ℚ), (0 : ℚ)), (⟨0, 0, 0, 0, 0, 0⟩, 1),
        (⟨0, 0, 0, 0, 0, 0⟩, 2), (⟨0, 0, 0, 0, 0, 0⟩, 3), (⟨0, 0, 0, 0, 0, 0⟩, 4),
        (⟨0, 0, 0, 0, 0, 0⟩, 5), (⟨0, 0, 0, 0, 0, 0⟩, 6), (⟨0, 0, 0, 0, 0, 0⟩, 7),
        (⟨0, 0, 0, 0, 0, 0⟩, 8), (⟨0, 0, 0, 0, 0, 0⟩, 9)] TPState.init).1)[9]? = some true ∧
      (runGate 10 [((⟨0, 0, 0, 0, 0, 0⟩ : V6 ℚ), (0 : ℚ)), (⟨0, 0, 0, 0, 0, 0⟩, 1),
        (⟨0, 0, 0, 0, 0, 0⟩, 2), (⟨0, 0, 0, 0, 0, 0⟩, 3), (⟨0, 0, 0, 0, 0, 0⟩, 4),
        (⟨0, 0, 0, 0, 0, 0⟩, 5), (⟨0, 0, 0, 0, 0, 0⟩, 6), (⟨0, 0, 0, 0, 0, 0⟩, 7),
        (⟨0, 0, 0, 0, 0, 0⟩, 8), (⟨0, 0, 0, 0, 0, 0⟩, 9)] TPState.init).2.velocity_vector.length = 1 := by
  constructor <;>
    norm_num [runGate, compute_head_move_threshold, estimate_head_velocity, meanV6,
      listMean, TPState.init, List.take, List.drop]

/-- Claim C5, amended: the gate's defined "not ready" pass-through is
governed by the **pose** window, not the velocity window: on every tick
`n` with fewer than 10 pose samples observed (`n + 1 < 10` from a fresh
instance) the gate returns `false`; once the pose window is full the
gate's decision compares the running `velocity_std` (which remains at
its initial 0 until 30 velocity samples have accumulated) against the
threshold, so it can return `true` with fewer than 30 velocity
samples. -/
theorem claim5_theorem (thr : ℝ) (inputs : List (V6 ℚ × ℚ)) (n : ℕ)
    (h : n < inputs.length) (hn : n + 1 < 10) :
    (runGate thr inputs TPState.init).1[n]? = some false := by
  have hget := runGate_getElem thr inputs TPState.init n
  have hklen := runGate_cvlen thr (inputs.take n) TPState.init (by simp [TPState.init])
  have htl : (inputs.take n).length = n := by
    simp only [List.length_take]
    omega
  have hne : inputs ≠ [] := by
    intro hx
    rw [hx] at h
    simp at h
  have hk : (runGate thr (inputs.take n) TPState.init).2.coord_vel.length =
      if n = 0 then 0 else min n 9 := by
    rw [hklen, htl]
    rcases Nat.eq_zero_or_pos n with h0 | h0
    · simp [h0, TPState.init]
    · have hne2 : inputs.take n ≠ [] := by
        simp only [ne_eq, List.take_eq_nil_iff]
        push_neg
        exact ⟨by omega, hne⟩
      have hn0 : n ≠ 0 := by omega
      simp [hne2, hn0, TPState.init]
  have hc : inputs[n]? = some (inputs.get ⟨n, h⟩) := by
    simp [List.getElem?_eq_getElem h, List.get_eq_getElem]
  rw [hget, hc]
  simp only [Option.map_some']
  rw [gate_fst_short]
  rw [hk]
  split <;> omega

/-- Witness for `claim5_theorem`: a one-tick run returns `false` on its
(first) tick. -/
theorem claim5_witness :
    (0 : ℕ) < ([((⟨0, 0, 0, 0, 0, 0⟩ : V6 ℚ), (0 : ℚ))] : List (V6 ℚ × ℚ)).length ∧
      0 + 1 < 10 ∧
      (runGate 7 [((⟨0, 0, 0, 0, 0, 0⟩ : V6 ℚ), (0 : ℚ))] TPState.init).1[0]? = some false :=
  ⟨by simp, by norm_num, claim5_theorem 7 [(⟨0, 0, 0, 0, 0, 0⟩, 0)] 0 (by simp) (by norm_num)⟩

/-! ### Claims C8 and C10 — versor geometry of the arc planner -/

/-- The positional (first three components) magnitude of a versor:
`‖d₃‖ · S / ‖d₆‖`, where `d₃` is the positional difference and `d₆` the
full six-component difference. -/
theorem versor_positional_magnitude (S : ℝ) (i f : V6 ℝ) (hS : 0 ≤ S)
    (hn : 0 < versorNorm i f) :
    Real.sqrt ((compute_versors S i f).x ^ 2 + (compute_versors S i f).y ^ 2 +
        (compute_versors S i f).z ^ 2) =
      S / versorNorm i f *
        Real.sqrt ((f.x - i.x) ^ 2 + (f.y - i.y) ^ 2 + (f.z - i.z) ^ 2) := by
  have hsn : (0 : ℝ) ≤ S / versorNorm i f := div_nonneg hS (le_of_lt hn)
  have harg : (compute_versors S i f).x ^ 2 + (compute_versors S i f).y ^ 2 +
      (compute_versors S i f).z ^ 2 =
      (S / versorNorm i f) ^ 2 *
        ((f.x - i.x) ^ 2 + (f.y - i.y) ^ 2 + (f.z - i.z) ^ 2) := by
    simp only [compute_versors, versorNorm]
    field_simp
    ring
  rw [harg, Real.sqrt_mul (sq_nonneg _), Real.sqrt_sq hsn]

/-- When the orientation components of the two points differ, the
six-component norm strictly dominates the positional part, so the
positional magnitude of the versor is strictly below the scale
factor. -/
theorem versor_positional_lt (S : ℝ) (i f : V6 ℝ) (hS : 0 < S)
    (hori : ¬(f.a = i.a ∧ f.b = i.b ∧ f.g = i.g)) :
    Real.sqrt ((compute_versors S i f).x ^ 2 + (compute_versors S i f).y ^ 2 +
      (compute_versors S i f).z ^ 2) < S := by
  have hdo : 0 < (f.a - i.a) ^ 2 + (f.b - i.b) ^ 2 + (f.g - i.g) ^ 2 := by
    by_contra hle
    push_neg at hle
    have h1 : (f.a - i.a) ^ 2 = 0 ∧ (f.b - i.b) ^ 2 = 0 ∧ (f.g - i.g) ^ 2 = 0 := by
      constructor
      · nlinarith [sq_nonneg (f.a - i.a), sq_nonneg (f.b - i.b), sq_nonneg (f.g - i.g)]
      constructor
      · nlinarith [sq_nonneg (f.a - i.a), sq_nonneg (f.b - i.b), sq_nonneg (f.g - i.g)]
      · nlinarith [sq_nonneg (f.a - i.a), sq_nonneg (f.b - i.b), sq_nonneg (f.g - i.g)]
    exact hori ⟨by nlinarith [h1.1], by nlinarith [h1.2.1], by nlinarith [h1.2.2]⟩
  have hd3 : (0 : ℝ) ≤ (f.x - i.x) ^ 2 + (f.y - i.y) ^ 2 + (f.z - i.z) ^ 2 := by positivity
  have hlt : Real.sqrt ((f.x - i.x) ^ 2 + (f.y - i.y) ^ 2 + (f.z - i.z) ^ 2) <
      versorNorm i f := by
    unfold versorNorm
    apply Real.sqrt_lt_sqrt hd3
    linarith
  have hn : 0 < versorNorm i f :=
    lt_of_le_of_lt (Real.sqrt_nonneg _) hlt
  rw [versor_positional_magnitude S i f (le_of_lt hS) hn]
  have hstep : S / versorNorm i f *
      Real.sqrt ((f.x - i.x) ^ 2 + (f.y - i.y) ^ 2 + (f.z - i.z) ^ 2) <
      S / versorNorm i f * versorNorm i f :=
    mul_lt_mul_of_pos_left hlt (div_pos hS hn)
  calc S / versorNorm i f *
      Real.sqrt ((f.x - i.x) ^ 2 + (f.y - i.y) ^ 2 + (f.z - i.z) ^ 2) <
      S / versorNorm i f * versorNorm i f := hstep
    _ = S := by field_simp

/-- Claim C8: the middle arc point produced by `compute_arc_motion`
(components 0–2 of the returned `target_arc`) lies strictly farther from
the head center than the position midpoint of the current and new poses
does, for a positive versor scale factor and a non-degenerate
configuration (midpoint distinct from head center). -/
theorem claim8_theorem (S : ℝ) (cur new : V6 ℝ) (hc : V3 ℝ) (hS : 0 < S)
    (hnd : ¬((new.x + cur.x) / 2 = hc.x ∧ (new.y + cur.y) / 2 = hc.y ∧
      (new.z + cur.z) / 2 = hc.z)) :
    correction_distance_calculation_target
        ⟨((compute_arc_motion S cur hc new).2).getD 0 0,
         ((compute_arc_motion S cur hc new).2).getD 1 0,
         ((compute_arc_motion S cur hc new).2).getD 2 0⟩ hc >
      correction_distance_calculation_target
        ⟨(new.x + cur.x) / 2, (new.y + cur.y) / 2, (new.z + cur.z) / 2⟩ hc := by
  have hd3 : 0 < ((new.x + cur.x) / 2 - hc.x) ^ 2 + ((new.y + cur.y) / 2 - hc.y) ^ 2 +
      ((new.z + cur.z) / 2 - hc.z) ^ 2 := by
    by_contra hle
    push_neg at hle
    refine hnd ⟨?_, ?_, ?_⟩ <;>
      nlinarith [sq_nonneg ((new.x + cur.x) / 2 - hc.x), sq_nonneg ((new.y + cur.y) / 2 - hc.y),
        sq_nonneg ((new.z + cur.z) / 2 - hc.z)]
  -- the six-component norm of (middle_point − head_center)
  have hn : 0 < versorNorm
      ⟨hc.x, hc.y, hc.z, new.a, new.b, new.g⟩
      ⟨(new.x + cur.x) / 2, (new.y + cur.y) / 2, (new.z + cur.z) / 2, 0, 0, 0⟩ := by
    unfold versorNorm
    apply Real.sqrt_pos.mpr
    nlinarith [sq_nonneg (0 - new.a), sq_nonneg (0 - new.b), sq_nonneg (0 - new.g)]
  set n := versorNorm
      ⟨hc.x, hc.y, hc.z, new.a, new.b, new.g⟩
      ⟨(new.x + cur.x) / 2, (new.y + cur.y) / 2, (new.z + cur.z) / 2, 0, 0, 0⟩ with hndef
  have hk : 0 < 2 * S / n := by positivity
  -- the middle arc point coordinates
  have harc : correction_distance_calculation_target
      ⟨((compute_arc_motion S cur hc new).2).getD 0 0,
       ((compute_arc_motion S cur hc new).2).getD 1 0,
       ((compute_arc_motion S cur hc new).2).getD 2 0⟩ hc =
      (1 + 2 * S / n) *
        Real.sqrt (((new.x + cur.x) / 2 - hc.x) ^ 2 + ((new.y + cur.y) / 2 - hc.y) ^ 2 +
          ((new.z + cur.z) / 2 - hc.z) ^ 2) := by
    simp only [compute_arc_motion, compute_versors, correction_distance_calculation_target,
      List.getD_cons_zero, List.getD_cons_succ, List.cons_append, List.nil_append]
    rw [show versorNorm
        ⟨hc.x, hc.y, hc.z, new.a, new.b, new.g⟩
        ⟨(new.x + cur.x) / 2, (new.y + cur.y) / 2, (new.z + cur.z) / 2, 0, 0, 0⟩ =
        Real.sqrt (((new.x + cur.x) / 2 - hc.x) ^ 2 + ((new.y + cur.y) / 2 - hc.y) ^ 2 +
          ((new.z + cur.z) / 2 - hc.z) ^ 2 + (0 - new.a) ^ 2 + (0 - new.b) ^ 2 +
          (0 - new.g) ^ 2) from rfl] at hndef
    have harg : ((new.x + cur.x) / 2 + ((new.x + cur.x) / 2 - hc.x) / n * S * 2 - hc.x) ^ 2 +
        ((new.y + cur.y) / 2 + ((new.y + cur.y) / 2 - hc.y) / n * S * 2 - hc.y) ^ 2 +
        ((new.z + cur.z) / 2 + ((new.z + cur.z) / 2 - hc.z) / n * S * 2 - hc.z) ^ 2 =
        (1 + 2 * S / n) ^ 2 *
          (((new.x + cur.x) / 2 - hc.x) ^ 2 + ((new.y + cur.y) / 2 - hc.y) ^ 2 +
            ((new.z + cur.z) / 2 - hc.z) ^ 2) := by
      field_simp
      ring
    rw [← hndef, harg, Real.sqrt_mul (sq_nonneg _), Real.sqrt_sq (by positivity)]
  rw [harc]
  have hroot : 0 < Real.sqrt (((new.x + cur.x) / 2 - hc.x) ^ 2 +
      ((new.y + cur.y) / 2 - hc.y) ^ 2 + ((new.z + cur.z) / 2 - hc.z) ^ 2) :=
    Real.sqrt_pos.mpr hd3
  have hrhs : correction_distance_calculation_target
      ⟨(new.x + cur.x) / 2, (new.y + cur.y) / 2, (new.z + cur.z) / 2⟩ hc =
      Real.sqrt (((new.x + cur.x) / 2 - hc.x) ^ 2 + ((new.y + cur.y) / 2 - hc.y) ^ 2 +
        ((new.z + cur.z) / 2 - hc.z) ^ 2) := rfl
  rw [hrhs]
  nlinarith [mul_pos hk hroot]

/-- Witness for `claim8_theorem` at `S = 1`, `cur = (2,0,0,0,0,0)`,
`hc = (0,0,0)`, `new = (4,0,0,0,0,0)` (midpoint `(3,0,0) ≠ (0,0,0)`). -/
theorem claim8_witness :
    (0 : ℝ) < 1 ∧
      ¬((((4 : ℝ) + 2) / 2 = 0) ∧ (((0 : ℝ) + 0) / 2 = 0) ∧ (((0 : ℝ) + 0) / 2 = 0)) ∧
      correction_distance_calculation_target
          ⟨((compute_arc_motion 1 ⟨2, 0, 0, 0, 0, 0⟩ ⟨0, 0, 0⟩ ⟨4, 0, 0, 0, 0, 0⟩).2).getD 0 0,
           ((compute_arc_motion 1 ⟨2, 0, 0, 0, 0, 0⟩ ⟨0, 0, 0⟩ ⟨4, 0, 0, 0, 0, 0⟩).2).getD 1 0,
           ((compute_arc_motion 1 ⟨2, 0, 0, 0, 0, 0⟩ ⟨0, 0, 0⟩ ⟨4, 0, 0, 0, 0, 0⟩).2).getD 2 0⟩
          ⟨0, 0, 0⟩ >
        correction_distance_calculation_target
          ⟨((4 : ℝ) + 2) / 2, ((0 : ℝ) + 0) / 2, ((0 : ℝ) + 0) / 2⟩ ⟨0, 0, 0⟩ :=
  ⟨by norm_num, by norm_num,
    claim8_theorem 1 ⟨2, 0, 0, 0, 0, 0⟩ ⟨4, 0, 0, 0, 0, 0⟩ ⟨0, 0, 0⟩ (by norm_num)
      (by norm_num)⟩

/-- Claim C10 counterexample: in `compute_arc_motion` with `S = 1`,
`current = (8,0,0,0,0,0)`, `head_center = (0,0,0)`,
`new = (8,0,0,0,0,6)`, the two points handed to `compute_versors` for
the middle leg carry differing orientation components (the head-center
argument inherits `(0,0,6)` from the new pose, the midpoint carries
`(0,0,0)`), yet the positional magnitude of the applied middle arc
versor offset (the middle arc point minus the position midpoint
`(8,0,0)`) is `8/5`, **not** strictly less than `S = 1` — because the
source doubles the middle versor.  This refutes the `< S` bound for
"every versor offset". -/
theorem claim10_counterexample :
    ((0 : ℝ), (0 : ℝ), (6 : ℝ)) ≠ ((0 : ℝ), (0 : ℝ), (0 : ℝ)) ∧
      ¬(Real.sqrt
          ((((compute_arc_motion 1 ⟨8, 0, 0, 0, 0, 0⟩ ⟨0, 0, 0⟩ ⟨8, 0, 0, 0, 0, 6⟩).2).getD 0 0 -
              8) ^ 2 +
            (((compute_arc_motion 1 ⟨8, 0, 0, 0, 0, 0⟩ ⟨0, 0, 0⟩ ⟨8, 0, 0, 0, 0, 6⟩).2).getD 1 0 -
              0) ^ 2 +
            (((compute_arc_motion 1 ⟨8, 0, 0, 0, 0, 0⟩ ⟨0, 0, 0⟩ ⟨8, 0, 0, 0, 0, 6⟩).2).getD 2 0 -
              0) ^ 2) < 1) := by
  have h100 : Real.sqrt (100 : ℝ) = 10 := by
    rw [show (100 : ℝ) = 10 ^ 2 by norm_num, Real.sqrt_sq (by norm_num : (0 : ℝ) ≤ 10)]
  constructor
  · intro h
    have h3 := congrArg (fun p : ℝ × ℝ × ℝ => p.2.2) h
    norm_num at h3
  · simp only [compute_arc_motion, compute_versors, List.getD_cons_zero, List.getD_cons_succ,
      List.cons_append, List.nil_append]
    norm_num
    rw [h100]
    norm_num

/-- Claim C10, amended.  First half (unchanged): `compute_versors`
returns the six-component difference `final − init` scaled by
`S / ‖final − init‖` with the norm taken over all six components.
Second half (weakened only where the counterexample forces): in the arc
planner the **move-out** versor offset has positional magnitude strictly
below `S` whenever the new and current orientations differ, and the
**middle arc** offset — which the source doubles — has positional
magnitude strictly below `2·S` whenever the new pose's orientation is
nonzero (the orientation of the midpoint argument); the final versor's
two points always carry identical orientation components, so the
orientation-difference premise is never met for it. -/
theorem claim10_theorem (S : ℝ) (i f cur new : V6 ℝ) (hc : V3 ℝ) (hS : 0 < S) :
    compute_versors S i f =
      ⟨(f.x - i.x) / versorNorm i f * S, (f.y - i.y) / versorNorm i f * S,
       (f.z - i.z) / versorNorm i f * S, (f.a - i.a) / versorNorm i f * S,
       (f.b - i.b) / versorNorm i f * S, (f.g - i.g) / versorNorm i f * S⟩ ∧
      (¬(cur.a = new.a ∧ cur.b = new.b ∧ cur.g = new.g) →
        Real.sqrt (((compute_arc_motion S cur hc new).1.x - cur.x) ^ 2 +
          ((compute_arc_motion S cur hc new).1.y - cur.y) ^ 2 +
          ((compute_arc_motion S cur hc new).1.z - cur.z) ^ 2) < S) ∧
      (¬(new.a = 0 ∧ new.b = 0 ∧ new.g = 0) →
        Real.sqrt ((((compute_arc_motion S cur hc new).2).getD 0 0 -
            (new.x + cur.x) / 2) ^ 2 +
          (((compute_arc_motion S cur hc new).2).getD 1 0 - (new.y + cur.y) / 2) ^ 2 +
          (((compute_arc_motion S cur hc new).2).getD 2 0 - (new.z + cur.z) / 2) ^ 2) <
          2 * S) := by
  refine ⟨rfl, ?_, ?_⟩
  · intro hori
    have h := versor_positional_lt S ⟨hc.x, hc.y, hc.z, new.a, new.b, new.g⟩ cur hS (by
      simpa using hori)
    simpa only [compute_arc_motion, add_sub_cancel_left] using h
  · intro hori
    have h2S : 0 < 2 * S := by linarith
    have h := versor_positional_lt (2 * S)
      ⟨hc.x, hc.y, hc.z, new.a, new.b, new.g⟩
      ⟨(new.x + cur.x) / 2, (new.y + cur.y) / 2, (new.z + cur.z) / 2, 0, 0, 0⟩ h2S (by
        intro hcon
        exact hori ⟨by linarith [hcon.1], by linarith [hcon.2.1], by linarith [hcon.2.2]⟩)
    simp only [compute_versors] at h
    simp only [compute_arc_motion, compute_versors, List.getD_cons_zero, List.getD_cons_succ,
      List.cons_append, List.nil_append, add_sub_cancel_left]
    convert h using 2
    ring

/-- Witness for `claim10_theorem` at `S = 1`, `cur = (8,0,0,0,0,0)`,
`new = (8,0,0,0,0,6)`, `hc = (0,0,0)`: the scale is positive, both
orientation-difference premises hold, and both positional-magnitude
bounds follow from the theorem. -/
theorem claim10_witness :
    (0 : ℝ) < 1 ∧
      ¬((0 : ℝ) = 0 ∧ (0 : ℝ) = 0 ∧ (0 : ℝ) = 6) ∧
      ¬((0 : ℝ) = 0 ∧ (0 : ℝ) = 0 ∧ (6 : ℝ) = 0) ∧
      Real.sqrt
          (((compute_arc_motion 1 ⟨8, 0, 0, 0, 0, 0⟩ ⟨0, 0, 0⟩ ⟨8, 0, 0, 0, 0, 6⟩).1.x - 8) ^ 2 +
            ((compute_arc_motion 1 ⟨8, 0, 0, 0, 0, 0⟩ ⟨0, 0, 0⟩ ⟨8, 0, 0, 0, 0, 6⟩).1.y - 0) ^ 2 +
            ((compute_arc_motion 1 ⟨8, 0, 0, 0, 0, 0⟩ ⟨0, 0, 0⟩ ⟨8, 0, 0, 0, 0, 6⟩).1.z - 0) ^ 2) <
        1 ∧
      Real.sqrt
          ((((compute_arc_motion 1 ⟨8, 0, 0, 0, 0, 0⟩ ⟨0, 0, 0⟩ ⟨8, 0, 0, 0, 0, 6⟩).2).getD 0 0 -
              ((8 : ℝ) + 8) / 2) ^ 2 +
            (((compute_arc_motion 1 ⟨8, 0, 0, 0, 0, 0⟩ ⟨0, 0, 0⟩ ⟨8, 0, 0, 0, 0, 6⟩).2).getD 1 0 -
              ((0 : ℝ) + 0) / 2) ^ 2 +
            (((compute_arc_motion 1 ⟨8, 0, 0, 0, 0, 0⟩ ⟨0, 0, 0⟩ ⟨8, 0, 0, 0, 0, 6⟩).2).getD 2 0 -
              ((0 : ℝ) + 0) / 2) ^ 2) <
        2 * 1 :=
  ⟨by norm_num, by norm_num, by norm_num,
    (claim10_theorem 1 ⟨0, 0, 0, 0, 0, 0⟩ ⟨0, 0, 0, 0, 0, 0⟩ ⟨8, 0, 0, 0, 0, 0⟩
        ⟨8, 0, 0, 0, 0, 6⟩ ⟨0, 0, 0⟩ (by norm_num)).2.1 (by norm_num),
    (claim10_theorem 1 ⟨0, 0, 0, 0, 0, 0⟩ ⟨0, 0, 0, 0, 0, 0⟩ ⟨8, 0, 0, 0, 0, 0⟩
        ⟨8, 0, 0, 0, 0, 6⟩ ⟨0, 0, 0⟩ (by norm_num)).2.2 (by norm_num)⟩

/-! ### Shared facts about `atan2`, degree conversion and `EPS` -/

theorem EPS_pos : (0 : ℝ) < EPS := by norm_num [EPS]

theorem EPS_lt_one : EPS < 1 := by norm_num [EPS]

theorem radians_zero : radians 0 = 0 := by simp [radians]

theorem degrees_zero : degrees 0 = 0 := by simp [degrees]

theorem degrees_radians (x : ℝ) : degrees (radians x) = x := by
  unfold degrees radians
  field_simp

theorem degrees_pi_div_two : degrees (Real.pi / 2) = 90 := by
  unfold degrees
  field_simp
  ring

/-- `atan2` inverts polar coordinates with a positive radius and an
angle in the principal range. -/
theorem atan2_mul_cos_sin (r θ : ℝ) (hr : 0 < r)
    (hθ : θ ∈ Set.Ioc (-Real.pi) Real.pi) :
    atan2 (r * Real.sin θ) (r * Real.cos θ) = θ := by
  unfold atan2
  have h1 : (Complex.ofReal (r * Real.cos θ) + Complex.ofReal (r * Real.sin θ) * Complex.I) =
      (r : ℂ) * (Complex.cos θ + Complex.sin θ * Complex.I) := by
    push_cast [Complex.ofReal_cos, Complex.ofReal_sin]
    ring
  rw [h1, Complex.arg_real_mul _ hr, Complex.arg_cos_add_sin_mul_I hθ]

theorem atan2_sin_cos (θ : ℝ) (hθ : θ ∈ Set.Ioc (-Real.pi) Real.pi) :
    atan2 (Real.sin θ) (Real.cos θ) = θ := by
  have h := atan2_mul_cos_sin 1 θ one_pos hθ
  simpa using h

theorem atan2_zero_one : atan2 0 1 = 0 := by
  unfold atan2
  simp [Complex.arg_one]

theorem atan2_one_zero : atan2 1 0 = Real.pi / 2 := by
  unfold atan2
  simp [Complex.arg_I]

theorem M4.id_mul (M : M4) : M4.id.mul M = M := by
  cases M
  simp [M4.mul, M4.id]

/-! ### Claim C1 — output convention of the frame conversion -/

/-- The marker matrix of the pose `(0,0,0,90°,0,0)` under the
rotating-ZYX convention: a pure 90° rotation about the z axis. -/
theorem markerMatrix90 :
    coordinates_to_transformation_matrix ⟨0, 0, 0⟩ ⟨90, 0, 0⟩ .rzyx =
      ⟨0, -1, 0, 0, 1, 0, 0, 0, 0, 0, 1, 0, 0, 0, 0, 1⟩ := by
  have hrad : radians 90 = Real.pi / 2 := by unfold radians; ring
  simp only [coordinates_to_transformation_matrix, euler_matrix, concatenate_matrices,
    M4.mul, translation_matrix, eulerCore, hrad, radians_zero, Real.sin_pi_div_two,
    Real.cos_pi_div_two, Real.sin_zero, Real.cos_zero]
  norm_num

/-- Decoding that matrix under the rotating-ZYX convention returns the
original pose `(90°,0,0)` orientation. -/
theorem markerMatrix90_decode_rzyx :
    transformation_matrix_to_coordinates
        (⟨0, -1, 0, 0, 1, 0, 0, 0, 0, 0, 1, 0, 0, 0, 0, 1⟩ : M4) .rzyx =
      (⟨0, 0, 0⟩, ⟨90, 0, 0⟩) := by
  have hcy : Real.sqrt ((0 : ℝ) * 0 + 1 * 1) = 1 := by norm_num
  simp only [transformation_matrix_to_coordinates, euler_from_matrix,
    translation_from_matrix, hcy, if_pos EPS_lt_one, neg_zero, atan2_zero_one,
    atan2_one_zero, degrees_zero, degrees_pi_div_two]

/-- Decoding that matrix under the static-XYZ convention instead returns
the orientation `(0,0,90°)`: the first and third Euler angles trade
places. -/
theorem markerMatrix90_decode_sxyz :
    transformation_matrix_to_coordinates
        (⟨0, -1, 0, 0, 1, 0, 0, 0, 0, 0, 1, 0, 0, 0, 0, 1⟩ : M4) .sxyz =
      (⟨0, 0, 0⟩, ⟨0, 0, 90⟩) := by
  have hcy : Real.sqrt ((0 : ℝ) * 0 + 1 * 1) = 1 := by norm_num
  simp only [transformation_matrix_to_coordinates, euler_from_matrix,
    translation_from_matrix, hcy, if_pos EPS_lt_one, neg_zero, atan2_zero_one,
    atan2_one_zero, degrees_zero, degrees_pi_div_two]

/-- Claim C1 counterexample: with the identity tracker-to-robot matrix
and the tracker pose `(0,0,0,90°,0,0)`, the code's frame conversion does
**not** equal the claimed pipeline that decodes under the static-XYZ
convention: the code (decoding rotating-ZYX) returns orientation
`(90,0,0)` while the claimed operation returns `(0,0,90)`. -/
theorem claim1_counterexample :
    transformation_tracker_to_robot (some M4.id) ⟨0, 0, 0, 90, 0, 0⟩ ≠
      Except.ok (some (trackerToRobotSpecC1 M4.id ⟨0, 0, 0, 90, 0, 0⟩)) := by
  have h1 : transformation_tracker_to_robot (some M4.id) ⟨0, 0, 0, 90, 0, 0⟩ =
      Except.ok (some ⟨0, 0, 0, 90, 0, 0⟩) := by
    simp only [transformation_tracker_to_robot, markerMatrix90, M4.id_mul,
      markerMatrix90_decode_rzyx]
  have h2 : trackerToRobotSpecC1 M4.id ⟨0, 0, 0, 90, 0, 0⟩ = ⟨0, 0, 0, 0, 0, 90⟩ := by
    simp only [trackerToRobotSpecC1, markerMatrix90, M4.id_mul, markerMatrix90_decode_sxyz]
  rw [h1, h2]
  intro hcon
  have ha := congrArg (fun r : Except PyErr (Option (V6 ℝ)) =>
    match r with
    | .ok (some v) => v.a
    | _ => 0) hcon
  norm_num at ha

/-- Claim C1, amended: for every set tracker-to-robot matrix, the frame
conversion builds each marker's matrix under the rotating-ZYX
convention, left-multiplies it by the tracker-to-robot matrix, and
decodes the product back to a pose under the **rotating-ZYX** convention
on output as well (not static-XYZ); this holds per pose and for the
3-pose sample operation. -/
theorem claim1_theorem (m : M4) (c : V6 ℝ) (sample : T3 ℝ) :
    transformation_tracker_to_robot (some m) c =
        Except.ok (some (trackerToRobotAmendedC1 m c)) ∧
      transform_tracker_to_robot (some m) sample =
        Except.ok (trackerToRobotAmendedC1 m sample.1, trackerToRobotAmendedC1 m sample.2.1,
          trackerToRobotAmendedC1 m sample.2.2) :=
  ⟨rfl, rfl⟩

/-! ### Claim C7 — Euler round trip -/

/-- Composing the translation matrix with the Euler rotation template
keeps the rotation block and installs the translation column. -/
theorem trans_mul_core (p : V3 ℝ) (ai aj ak : ℝ) :
    (translation_matrix p).mul (eulerCore ai aj ak) =
      { eulerCore ai aj ak with m03 := p.x, m13 := p.y, m23 := p.z } := by
  simp only [M4.mul, translation_matrix, eulerCore]
  congr 1 <;> ring

/-- Decoding (static-XYZ reading) a matrix of the Euler template form
with an arbitrary translation column recovers the three angles, provided
the first and third lie in the principal range `(-π, π]` and the second
is away from gimbal lock (`cos aj > EPS`) in the principal range. -/
theorem decode_core (t : V3 ℝ) (ai aj ak : ℝ)
    (hi : ai ∈ Set.Ioc (-Real.pi) Real.pi) (hk : ak ∈ Set.Ioc (-Real.pi) Real.pi)
    (hj : EPS < Real.cos aj) (hj2 : aj ∈ Set.Ioc (-Real.pi) Real.pi) :
    euler_from_matrix
        { eulerCore ai aj ak with m03 := t.x, m13 := t.y, m23 := t.z } .sxyz =
      (ai, aj, ak) := by
  have hcpos : 0 < Real.cos aj := lt_trans EPS_pos hj
  simp only [euler_from_matrix, eulerCore]
  have hcy : Real.sqrt (Real.cos aj * Real.cos ak * (Real.cos aj * Real.cos ak) +
      Real.cos aj * Real.sin ak * (Real.cos aj * Real.sin ak)) = Real.cos aj := by
    rw [show Real.cos aj * Real.cos ak * (Real.cos aj * Real.cos ak) +
        Real.cos aj * Real.sin ak * (Real.cos aj * Real.sin ak) =
        Real.cos aj ^ 2 * (Real.sin ak ^ 2 + Real.cos ak ^ 2) from by ring,
      Real.sin_sq_add_cos_sq, mul_one]
    exact Real.sqrt_sq hcpos.le
  rw [hcy, if_pos hj, neg_neg]
  rw [atan2_mul_cos_sin (Real.cos aj) ai hcpos hi,
    atan2_mul_cos_sin (Real.cos aj) ak hcpos hk, atan2_sin_cos aj hj2]

/-- The rotating-ZYX reading of a matrix swaps the first and third
angles of the static-XYZ reading. -/
theorem euler_from_matrix_rzyx (M : M4) :
    euler_from_matrix M .rzyx =
      ((euler_from_matrix M .sxyz).2.2, (euler_from_matrix M .sxyz).2.1,
        (euler_from_matrix M .sxyz).1) := rfl

/-- Degree intervals map into the radian principal intervals. -/
theorem radians_Ioc (a : ℝ) (h : a ∈ Set.Ioc (-180) 180) :
    radians a ∈ Set.Ioc (-Real.pi) Real.pi := by
  obtain ⟨hl, hr⟩ := h
  have hπ := Real.pi_pos
  constructor
  · unfold radians
    nlinarith
  · unfold radians
    nlinarith

/-- The encoding of `(0,0,0)` position and `(360°,0,0)` orientation
under static-XYZ: a full turn about the x axis, i.e. the identity. -/
theorem toMatrix360 :
    coordinates_to_transformation_matrix ⟨0, 0, 0⟩ ⟨360, 0, 0⟩ .sxyz =
      ⟨1, 0, 0, 0, 0, 1, 0, 0, 0, 0, 1, 0, 0, 0, 0, 1⟩ := by
  have hrad : radians 360 = 2 * Real.pi := by unfold radians; ring
  simp only [coordinates_to_transformation_matrix, euler_matrix, concatenate_matrices,
    M4.mul, translation_matrix, eulerCore, hrad, radians_zero, Real.sin_two_pi,
    Real.cos_two_pi, Real.sin_zero, Real.cos_zero]
  norm_num

/-- Decoding the identity matrix (static-XYZ) yields the zero pose. -/
theorem decode_identity_sxyz :
    transformation_matrix_to_coordinates
        (⟨1, 0, 0, 0, 0, 1, 0, 0, 0, 0, 1, 0, 0, 0, 0, 1⟩ : M4) .sxyz =
      (⟨0, 0, 0⟩, ⟨0, 0, 0⟩) := by
  have hcy : Real.sqrt ((1 : ℝ) * 1 + 0 * 0) = 1 := by norm_num
  simp only [transformation_matrix_to_coordinates, euler_from_matrix,
    translation_from_matrix, hcy, if_pos EPS_lt_one, neg_zero, atan2_zero_one, degrees_zero]

/-- Claim C7 counterexample: the orientation `(360°, 0, 0)` is away from
gimbal lock (its pitch is 0, with `cos = 1 > EPS`), yet the static-XYZ
round trip returns `(0,0,0)`, off by 360 — far beyond the claimed 1e-6
tolerance.  The round trip only recovers angles in the principal Euler
ranges. -/
theorem claim7_counterexample :
    EPS < Real.cos (radians (V3.mk (α := ℝ) 360 0 0).y) ∧
      ¬(|(transformation_matrix_to_coordinates
            (coordinates_to_transformation_matrix ⟨0, 0, 0⟩ ⟨360, 0, 0⟩ .sxyz) .sxyz).2.x -
          (360 : ℝ)| ≤ 1 / 1000000) := by
  constructor
  · rw [show (V3.mk (α := ℝ) 360 0 0).y = 0 from rfl, radians_zero, Real.cos_zero]
    exact EPS_lt_one
  · rw [toMatrix360, decode_identity_sxyz]
    norm_num

/-- Claim C7, amended: for every position `p` and every orientation `o`
whose first and third angles lie in the principal range `(-180°, 180°]`
and whose second angle lies in `(-90°, 90°)` with `cos` above the code's
gimbal-lock threshold `EPS`, decoding the matrix built from `(p, o)`
under either supported convention returns exactly `(p, o)` (exact
equality in real arithmetic, hence within the claimed 1e-6).  Outside
the principal ranges the decode returns the principal representative
instead (see the counterexample). -/
theorem claim7_theorem (ax : Axes) (p o : V3 ℝ)
    (h1 : o.x ∈ Set.Ioc (-180) 180) (h3 : o.z ∈ Set.Ioc (-180) 180)
    (h2 : o.y ∈ Set.Ioo (-90) 90) (h2e : EPS < Real.cos (radians o.y)) :
    transformation_matrix_to_coordinates (coordinates_to_transformation_matrix p o ax) ax =
      (p, o) := by
  have hπ := Real.pi_pos
  have hα : radians o.x ∈ Set.Ioc (-Real.pi) Real.pi := radians_Ioc o.x h1
  have hγ : radians o.z ∈ Set.Ioc (-Real.pi) Real.pi := radians_Ioc o.z h3
  have hβ : radians o.y ∈ Set.Ioc (-Real.pi) Real.pi := by
    obtain ⟨hl, hr⟩ := h2
    constructor
    · unfold radians
      nlinarith
    · unfold radians
      nlinarith
  cases ax with
  | sxyz =>
    rw [show coordinates_to_transformation_matrix p o .sxyz =
        (translation_matrix p).mul
          (eulerCore (radians o.x) (radians o.y) (radians o.z)) from rfl,
      trans_mul_core]
    simp only [transformation_matrix_to_coordinates, translation_from_matrix]
    rw [decode_core p (radians o.x) (radians o.y) (radians o.z) hα hγ h2e hβ]
    simp only [degrees_radians]
  | rzyx =>
    rw [show coordinates_to_transformation_matrix p o .rzyx =
        (translation_matrix p).mul
          (eulerCore (radians o.z) (radians o.y) (radians o.x)) from rfl,
      trans_mul_core]
    simp only [transformation_matrix_to_coordinates, euler_from_matrix_rzyx,
      translation_from_matrix]
    rw [decode_core p (radians o.z) (radians o.y) (radians o.x) hγ hα h2e hβ]
    simp only [degrees_radians]

/-- Witness for `claim7_theorem` at `p = (1,2,3)`, `o = (0,0,0)`,
static-XYZ convention. -/
theorem claim7_witness :
    ((0 : ℝ) ∈ Set.Ioc (-180) 180) ∧ ((0 : ℝ) ∈ Set.Ioo (-90) 90) ∧
      EPS < Real.cos (radians 0) ∧
      transformation_matrix_to_coordinates
          (coordinates_to_transformation_matrix ⟨1, 2, 3⟩ ⟨0, 0, 0⟩ .sxyz) .sxyz =
        (⟨1, 2, 3⟩, ⟨0, 0, 0⟩) :=
  ⟨by norm_num, by norm_num,
    by rw [radians_zero, Real.cos_zero]; exact EPS_lt_one,
    claim7_theorem .sxyz ⟨1, 2, 3⟩ ⟨0, 0, 0⟩ (by norm_num) (by norm_num) (by norm_num)
      (by show EPS < Real.cos (radians 0)
          rw [radians_zero, Real.cos_zero]
          exact EPS_lt_one)⟩

end RobotTMS
